import Mathlib

/-!
Verification of the event-stream ingestion & notification engine.

Shallow embedding of the core services:
* `RateLimit`  — `RateLimitService.checkRateLimit` (fixed-window counter),
  from `src/services/rate-limit.service.ts`.
* `TimeSeries` — `TimeSeriesAggregator` validation / aggregation / bucket
  generation, from the time-series utility module.
* `Batch`      — `EventService.createBatchEvents` (chunked batch ingestion),
  from the event service module.
* `Webhook`    — `WebhookService.deliverWebhook` / `triggerWebhooks` and
  `WebhookRepository.updateDeliveryStatus`, from the webhook modules.

JavaScript `Date` values are embedded as `Int` milliseconds since the epoch;
JS numbers that the code only ever uses as integers are embedded as `Int`
(or `Nat` where the source guarantees non-negativity).  `async` control flow
is embedded sequentially: each `await` chain becomes ordinary sequential
evaluation, and where a claim is about effect order the function also returns
an explicit trace of its effects in program order.
-/

namespace RateLimit

/-- Rate-limit configuration (`RateLimitConfig`, validated by
`validateAndMergeConfig`: `windowMs > 0`, `max > 0`; defaults
`windowMs = 60000`, `max = 100`). -/
structure Config where
  windowMs : Int
  max : Int
  deriving Repr, DecidableEq

/-- A persisted `RateLimit` row for one `(key, endpoint)` pair:
`count` and `resetAt` (ms epoch). -/
structure Row where
  count : Int
  resetAt : Int
  deriving Repr, DecidableEq

/-- The `RateLimitInfo` returned to callers. -/
structure LimitInfo where
  limit : Int
  remaining : Int
  reset : Int
  deriving Repr, DecidableEq

/-- Result of one `checkRateLimit` call: the persisted row afterwards,
the `isLimited` flag and the `limitInfo`. -/
structure CheckResult where
  row : Row
  isLimited : Bool
  limitInfo : LimitInfo
  deriving Repr, DecidableEq

/-- `RateLimitService.calculateLimitInfo`:
`remaining = Math.max(0, max - count)`, `isLimited = count > max`,
`reset = Math.floor(resetAt / 1000)`. -/
def calculateLimitInfo (cfg : Config) (count : Int) (resetAt : Int) :
    Bool × LimitInfo :=
  let remaining : Int := max 0 (cfg.max - count)
  let isLimited : Bool := decide (cfg.max < count)
  (isLimited, { limit := cfg.max, remaining := remaining, reset := Int.fdiv resetAt 1000 })

/-- `RateLimitService.getOrCreateRateLimit`: if the row is absent or
`rateLimit.resetAt < now`, upsert `{count := 1, resetAt := now + windowMs}`;
otherwise increment `count` and keep the original `resetAt`. -/
def getOrCreateRateLimit (cfg : Config) (row? : Option Row) (now : Int) : Row :=
  match row? with
  | none => { count := 1, resetAt := now + cfg.windowMs }
  | some row =>
    if row.resetAt < now then
      { count := 1, resetAt := now + cfg.windowMs }
    else
      { count := row.count + 1, resetAt := row.resetAt }

/-- `RateLimitService.checkRateLimit` for one `(key, endpoint)` pair, the
storage row for that pair passed explicitly (state-passing embedding of the
Prisma row). -/
def checkRateLimit (cfg : Config) (row? : Option Row) (now : Int) : CheckResult :=
  let rateLimit := getOrCreateRateLimit cfg row? now
  let (isLimited, info) := calculateLimitInfo cfg rateLimit.count rateLimit.resetAt
  { row := rateLimit, isLimited := isLimited, limitInfo := info }

end RateLimit

/-- Error taxonomy (`ErrorType` of the shared error utilities), restricted
to the kinds the embedded code can raise. -/
inductive ErrorType
  | validation
  | internal
  deriving Repr, DecidableEq

/-- An `AppError`: kind, message, HTTP status code. -/
structure AppError where
  type : ErrorType
  message : String
  statusCode : Nat
  deriving Repr, DecidableEq

namespace TimeSeries

/-- The supported aggregation intervals (`TimeInterval`):
`'1m' | '5m' | '15m' | '1h' | '1d'`, exactly the keys of
`INTERVAL_CONFIGS`. -/
inductive TimeInterval
  | m1
  | m5
  | m15
  | h1
  | d1
  deriving Repr, DecidableEq

/-- One entry of `INTERVAL_CONFIGS`: view name, native Postgres interval,
maximum allowed time range in milliseconds. -/
structure TimeSeriesConfig where
  viewName : String
  pgInterval : String
  maxTimeRange : Int
  deriving Repr, DecidableEq

/-- `INTERVAL_CONFIGS` (total on the supported interval set, so the
`Invalid interval` throw of `getConfig` is unreachable here). -/
def getConfig : TimeInterval → TimeSeriesConfig
  | .m1 => { viewName := "events_1m", pgInterval := "1 minute",
             maxTimeRange := 24 * 60 * 60 * 1000 }
  | .m5 => { viewName := "events_5m", pgInterval := "5 minutes",
             maxTimeRange := 7 * 24 * 60 * 60 * 1000 }
  | .m15 => { viewName := "events_15m", pgInterval := "15 minutes",
              maxTimeRange := 30 * 24 * 60 * 60 * 1000 }
  | .h1 => { viewName := "events_1h", pgInterval := "1 hour",
             maxTimeRange := 90 * 24 * 60 * 60 * 1000 }
  | .d1 => { viewName := "events_1d", pgInterval := "1 day",
             maxTimeRange := 365 * 24 * 60 * 60 * 1000 }

/-- `TimeSeriesAggregator.validateTimeRangeForInterval`: reject
`end - start <= 0` first, then `end - start > maxTimeRange`, both as
`VALIDATION` errors with status 400. -/
def validateTimeRangeForInterval (interval : TimeInterval)
    (startTime endTime : Int) : Except AppError Unit :=
  let config := getConfig interval
  let timeRange := endTime - startTime
  if timeRange ≤ 0 then
    .error { type := .validation, message := "End time must be after start time",
             statusCode := 400 }
  else if timeRange > config.maxTimeRange then
    .error { type := .validation, message := "Time range too large",
             statusCode := 400 }
  else
    .ok ()

/-- The value `TimeSeriesAggregator.aggregate` resolves with: the requested
interval and the precomputed view name for it. -/
structure AggregateResult where
  interval : TimeInterval
  viewName : String
  deriving Repr, DecidableEq

/-- `TimeSeriesAggregator.aggregate`: validate the range for the interval,
then resolve the interval's config and return its view name. -/
def aggregate (interval : TimeInterval) (startTime endTime : Int) :
    Except AppError AggregateResult :=
  match validateTimeRangeForInterval interval startTime endTime with
  | .error e => .error e
  | .ok _ =>
    let config := getConfig interval
    .ok { interval := interval, viewName := config.viewName }

/-- `TimeSeriesAggregator.suggestInterval`: spans of at most 24 hours get
`'1h'`, everything larger gets `'1d'` (all three larger branches return
`'1d'`). -/
def suggestInterval (startTime endTime : Int) : TimeInterval :=
  if |endTime - startTime| ≤ 24 * 60 * 60 * 1000 then .h1 else .d1

/-- Width in milliseconds of one bucket of `generateBuckets`, from the
`switch` on `suggestInterval`: one hour for `'1h'`, one calendar day for
`'1d'` and the default branch.  (Local time is embedded as UTC with no DST,
so `setHours(+1)` is +3600000 ms and `setDate(+1)` is +86400000 ms.) -/
def bucketWidth (startTime endTime : Int) : Int :=
  match suggestInterval startTime endTime with
  | .h1 => 60 * 60 * 1000
  | _ => 24 * 60 * 60 * 1000

/-- The `while (currentTime < endTime)` loop of `generateBuckets`,
embedded with an explicit fuel that `generateBuckets` instantiates large
enough to cover the whole range (each iteration advances `currentTime` by
at least 1 ms). -/
def generateBucketsAux (width endTime : Int) : Nat → Int → List (Int × Int)
  | 0, _ => []
  | fuel + 1, currentTime =>
    if currentTime < endTime then
      let bucketEnd := min (currentTime + width) endTime
      (currentTime, bucketEnd) :: generateBucketsAux width endTime fuel bucketEnd
    else
      []

/-- `TimeSeriesAggregator.generateBuckets`: repeatedly emit
`[currentTime, min (currentTime + width) endTime)` until `endTime` is
reached; the final bucket is clipped to `endTime`. -/
def generateBuckets (startTime endTime : Int) : List (Int × Int) :=
  generateBucketsAux (bucketWidth startTime endTime) endTime
    (endTime - startTime).toNat startTime

/-- The invariant of the bucket list produced from cursor `cur`:
each bucket starts at the cursor, is non-empty, stays within `e`, and the
next bucket continues where it ended; the list ends exactly at `e`. -/
def bucketsOK (e : Int) : Int → List (Int × Int) → Prop
  | cur, [] => cur = e
  | cur, (s, t) :: rest => s = cur ∧ cur < t ∧ t ≤ e ∧ bucketsOK e t rest

end TimeSeries

namespace Batch

/-- An event submitted for creation (`CreateEventInput`): the fields the
batch coordinator itself reads or copies.  `timestamp` is optional and
defaulted at create time. -/
structure EventInput where
  eventType : String
  source : String
  timestamp : Option String
  deriving Repr, DecidableEq

/-- An `Event` as the batch path returns it: either the row the repository
created, or the synthesized placeholder for a failed item. -/
structure Event where
  id : String
  eventType : String
  source : String
  timestamp : Option String
  status : String
  error : Option String
  createdAt : String
  updatedAt : String
  severity : Option String
  deriving Repr, DecidableEq

/-- `validateBatchSize` (`CommonValidation.batchSize`:
`z.number().int().min(1).max(MAX_BATCH_SIZE)` with `MAX_BATCH_SIZE = 1000`);
a failed parse raises a validation error (message abbreviating the Zod
issue). -/
def validateBatchSize (size : Nat) : Except AppError Unit :=
  if size < 1 then
    .error { type := .validation, message := "Batch size must be at least 1",
             statusCode := 400 }
  else if size > 1000 then
    .error { type := .validation, message := "Batch size cannot exceed 1000",
             statusCode := 400 }
  else
    .ok ()

/-- The chunking loop
`for (let i = 0; i < items.length; i += CHUNK_SIZE) chunks.push(items.slice(i, i + CHUNK_SIZE))`,
embedded with fuel `items.length` (for a positive chunk size every
iteration consumes at least one item, so this fuel suffices). -/
def chunksOfAux (c : Nat) : Nat → List α → List (List α)
  | 0, _ => []
  | _, [] => []
  | fuel + 1, l => l.take c :: chunksOfAux c fuel (l.drop c)

/-- Partition a list into consecutive chunks of size `c`. -/
def chunksOf (c : Nat) (l : List α) : List (List α) :=
  chunksOfAux c l.length l

/-- The per-item body of `createBatchEvents`: call
`eventRepository.create({...event, timestamp: event.timestamp || nowIso})`;
on an error, synthesize the placeholder
`{...event, status: 'failed', error: message, id: '', severity: 'error'}`.
The repository is embedded as `create : Nat → EventInput → Except String
Event` giving the outcome of the create call for the item at each batch
position. -/
def processItem (create : Nat → EventInput → Except String Event)
    (nowIso : String) (i : Nat) (event : EventInput) : Event :=
  match create i { event with timestamp := some (event.timestamp.getD nowIso) } with
  | .ok e => e
  | .error msg =>
    { id := "", eventType := event.eventType, source := event.source,
      timestamp := event.timestamp, status := "failed", error := some msg,
      createdAt := nowIso, updatedAt := nowIso, severity := some "error" }

deriving instance DecidableEq for Except

/-- One `createBatchEvents` run: the value returned to the caller and the
events the repository actually persisted (successful creates, in call
order). -/
structure BatchRun where
  result : Except AppError (List Event)
  stored : List Event
  deriving Repr, DecidableEq

/-- `EventService.createBatchEvents`: validate the batch size, partition
the items into chunks of `c`, process the chunks in waves of at most `m`,
and concatenate the per-chunk results in order.  `c` and `m` embed the
`EVENT_BATCH_CHUNK_SIZE` / `EVENT_BATCH_MAX_CONCURRENT` configuration
constants.  Concurrent execution within a wave is embedded sequentially:
each item's outcome depends only on its own create call, and
`Promise.all` preserves input order, so the joined wave results are the
per-item results in input order. -/
def createBatchEvents (c m : Nat) (create : Nat → EventInput → Except String Event)
    (nowIso : String) (events : List EventInput) : BatchRun :=
  match validateBatchSize events.length with
  | .error e => { result := .error e, stored := [] }
  | .ok _ =>
    let chunks := chunksOf c events.enum
    let waves := chunksOf m chunks
    let results := (waves.map (fun wave =>
      (wave.map (fun chunk =>
        chunk.map (fun p => processItem create nowIso p.1 p.2))).flatten)).flatten
    { result := .ok results,
      stored := events.enum.filterMap (fun p =>
        (create p.1 { p.2 with timestamp := some (p.2.timestamp.getD nowIso) }).toOption) }

/-- One observable effect of a `createBatchEvents` run, in program order:
a repository create for the item at a position, an `await` of
`webhookService.triggerWebhooks('event.created', …)` for the successful
item at a position (`triggerWebhooks` resolves only once every subscriber
delivery has reached a terminal state), or the response being returned to
the caller. -/
inductive BatchEffect
  | createCall (index : Nat)
  | awaitWebhookTrigger (index : Nat)
  | respond
  deriving Repr, DecidableEq

/-- The effect trace of `createBatchEvents` in program order: the item
creates, then — because the source `await`s
`Promise.all(successfulEvents.map(e => triggerWebhooks('event.created', e).catch(…)))`
— one awaited webhook trigger per successful item, and only then the
response. -/
def createBatchEventsTrace (c m : Nat)
    (create : Nat → EventInput → Except String Event)
    (nowIso : String) (events : List EventInput) : List BatchEffect :=
  match validateBatchSize events.length with
  | .error _ => []
  | .ok _ =>
    let results := (createBatchEvents c m create nowIso events).result.toOption.getD []
    (events.enum.map (fun p => BatchEffect.createCall p.1)) ++
    ((results.enum.filter (fun p => p.2.status ≠ "failed")).map
      (fun p => BatchEffect.awaitWebhookTrigger p.1)) ++
    [BatchEffect.respond]

end Batch

/-!
`Crypto`: executable Nat-based implementation of SHA-256 (FIPS 180-4) and
HMAC-SHA256 (RFC 2104), embedding the Node `crypto`
`createHmac('sha256', secret).update(payload).digest('hex')` call used by
`WebhookService.generateSignature`.  Bytes are `Nat` values below 256 and
32-bit words are `Nat` values reduced by `w32` (mod 2^32).
-/

namespace Crypto

def w32 (n : Nat) : Nat := n % 4294967296

def rotr (n x : Nat) : Nat := w32 ((x >>> n) ||| (x <<< (32 - n)))

def shr (n x : Nat) : Nat := x >>> n

def bsig0 (x : Nat) : Nat := rotr 2 x ^^^ rotr 13 x ^^^ rotr 22 x

def bsig1 (x : Nat) : Nat := rotr 6 x ^^^ rotr 11 x ^^^ rotr 25 x

def ssig0 (x : Nat) : Nat := rotr 7 x ^^^ rotr 18 x ^^^ shr 3 x

def ssig1 (x : Nat) : Nat := rotr 17 x ^^^ rotr 19 x ^^^ shr 10 x

def ch (x y z : Nat) : Nat := (x &&& y) ^^^ ((x ^^^ 4294967295) &&& z)

def maj (x y z : Nat) : Nat := (x &&& y) ^^^ (x &&& z) ^^^ (y &&& z)

def K : Array Nat := #[
  1116352408, 1899447441, 3049323471, 3921009573, 961987163,
  1508970993, 2453635748, 2870763221, 3624381080, 310598401,
  607225278, 1426881987, 1925078388, 2162078206, 2614888103,
  3248222580, 3835390401, 4022224774, 264347078, 604807628,
  770255983, 1249150122, 1555081692, 1996064986, 2554220882,
  2821834349, 2952996808, 3210313671, 3336571891, 3584528711,
  113926993, 338241895, 666307205, 773529912, 1294757372,
  1396182291, 1695183700, 1986661051, 2177026350, 2456956037,
  2730485921, 2820302411, 3259730800, 3345764771, 3516065817,
  3600352804, 4094571909, 275423344, 430227734, 506948616,
  659060556, 883997877, 958139571, 1322822218, 1537002063,
  1747873779, 1955562222, 2024104815, 2227730452, 2361852424,
  2428436474, 2756734187, 3204031479, 3329325298]

def beBytes : Nat → Nat → List Nat
  | 0, _ => []
  | n + 1, v => beBytes n (v / 256) ++ [v % 256]

def padMessage (msg : List Nat) : List Nat :=
  let L := msg.length
  let k := (64 - ((L + 9) % 64)) % 64
  msg ++ [128] ++ List.replicate k 0 ++ beBytes 8 (8 * L)

def bytesToWords : List Nat → List Nat
  | a :: b :: c :: d :: rest => (((a * 256 + b) * 256 + c) * 256 + d) :: bytesToWords rest
  | _ => []

def group16Aux : Nat → List Nat → List (List Nat)
  | 0, _ => []
  | _, [] => []
  | fuel + 1, ws => ws.take 16 :: group16Aux fuel (ws.drop 16)

def group16 (ws : List Nat) : List (List Nat) := group16Aux ws.length ws

def extendW : Nat → Array Nat → Array Nat
  | 0, w => w
  | n + 1, w =>
    let t := w.size
    let wt := w32 (ssig1 (w.getD (t - 2) 0) + w.getD (t - 7) 0 +
      ssig0 (w.getD (t - 15) 0) + w.getD (t - 16) 0)
    extendW n (w.push wt)

structure Regs where
  a : Nat
  b : Nat
  c : Nat
  d : Nat
  e : Nat
  f : Nat
  g : Nat
  h : Nat
  deriving Repr, DecidableEq

def H0 : Regs :=
  { a := 1779033703, b := 3144134277, c := 1013904242, d := 2773480762,
    e := 1359893119, f := 2600822924, g := 528734635, h := 1541459225 }

def round (k w : Nat) (r : Regs) : Regs :=
  let t1 := w32 (r.h + bsig1 r.e + ch r.e r.f r.g + k + w)
  let t2 := w32 (bsig0 r.a + maj r.a r.b r.c)
  { a := w32 (t1 + t2), b := r.a, c := r.b, d := r.c,
    e := w32 (r.d + t1), f := r.e, g := r.f, h := r.g }

def rounds : Nat → Nat → Array Nat → Regs → Regs
  | 0, _, _, r => r
  | n + 1, i, ws, r => rounds n (i + 1) ws (round (K.getD i 0) (ws.getD i 0) r)

def processBlock (h : Regs) (block : List Nat) : Regs :=
  let ws := extendW 48 block.toArray
  let r := rounds 64 0 ws h
  { a := w32 (h.a + r.a), b := w32 (h.b + r.b), c := w32 (h.c + r.c),
    d := w32 (h.d + r.d), e := w32 (h.e + r.e), f := w32 (h.f + r.f),
    g := w32 (h.g + r.g), h := w32 (h.h + r.h) }

def sha256 (msg : List Nat) : List Nat :=
  let blocks := group16 (bytesToWords (padMessage msg))
  let final := blocks.foldl processBlock H0
  ([final.a, final.b, final.c, final.d, final.e, final.f, final.g, final.h].map
    (beBytes 4)).flatten

def hmacSha256 (key msg : List Nat) : List Nat :=
  let k0 := if 64 < key.length then sha256 key else key
  let kp := k0 ++ List.replicate (64 - k0.length) 0
  sha256 ((kp.map (fun b => b ^^^ 92)) ++
    sha256 ((kp.map (fun b => b ^^^ 54)) ++ msg))

def hexDigit (n : Nat) : Char := "0123456789abcdef".data.getD n '0'

def hexOfBytes (bs : List Nat) : String :=
  String.mk (bs.foldr (fun b acc => hexDigit (b / 16) :: hexDigit (b % 16) :: acc) [])

def utf8Bytes (s : String) : List Nat := s.toUTF8.toList.map (fun b => b.toNat)

end Crypto

namespace Webhook

/-- A `Webhook` subscription row as the dispatcher reads it. -/
structure WebhookSub where
  id : String
  name : String
  url : String
  secret : String
  events : List String
  enabled : Bool
  retryCount : Nat
  deriving Repr, DecidableEq

/-- `WebhookService.deliveryConfig` (field values from the source):
`maxRetries = 3`, `retryDelays = [1000, 5000, 15000]`, `timeout = 10000`. -/
structure DeliveryConfig where
  maxRetries : Nat
  retryDelays : List Nat
  timeout : Nat
  deriving Repr, DecidableEq

/-- The service-level delivery configuration constant. -/
def deliveryConfig : DeliveryConfig :=
  { maxRetries := 3, retryDelays := [1000, 5000, 15000], timeout := 10000 }

/-- Outcome of one outbound `axios.post` attempt: a resolved response
(status, data) or a rejection (message, optional response status). -/
inductive AttemptOutcome
  | success (status : Nat) (data : String)
  | failure (msg : String) (status : Option Nat)
  deriving Repr, DecidableEq

/-- One outbound POST as `deliverWebhook` issues it: target URL, JSON
body, and the `x-webhook-signature` / `x-webhook-id` / `x-delivery-id` /
`x-event-type` headers, with the per-attempt timeout. -/
structure OutboundRequest where
  url : String
  body : String
  signature : String
  webhookId : String
  deliveryId : String
  eventType : String
  timeout : Nat
  deriving Repr, DecidableEq

/-- A `WebhookDeliveryResult` as returned by `deliverWebhook`. -/
structure WebhookDeliveryResult where
  success : Bool
  statusCode : Nat
  response : Option String
  error : Option String
  deliveryId : String
  attempt : Nat
  deriving Repr, DecidableEq

/-- A persisted `WebhookDelivery` row as
`WebhookRepository.updateDeliveryStatus` creates it. -/
structure DeliveryRecord where
  webhookId : String
  eventId : String
  status : String
  response : Option String
  error : Option String
  retryCount : Nat
  deriving Repr, DecidableEq

/-- `WebhookService.generateSignature`:
`createHmac('sha256', secret).update(payload).digest('hex')`. -/
def generateSignature (secret payload : String) : String :=
  Crypto.hexOfBytes
    (Crypto.hmacSha256 (Crypto.utf8Bytes secret) (Crypto.utf8Bytes payload))

/-- The POST of one delivery attempt, with the headers the source sets. -/
def mkRequest (w : WebhookSub) (eventType payloadJson deliveryId : String) :
    OutboundRequest :=
  { url := w.url, body := payloadJson,
    signature := generateSignature w.secret payloadJson,
    webhookId := w.id, deliveryId := deliveryId, eventType := eventType,
    timeout := deliveryConfig.timeout }

/-- The `WebhookDelivery` row `updateDeliveryStatus` creates from a
delivery result: `eventId := result.deliveryId`,
`status := success ? 'success' : 'failed'`, the last response/error, and
`retryCount := result.attempt`. -/
def mkDeliveryRecord (webhookId : String) (result : WebhookDeliveryResult) :
    DeliveryRecord :=
  { webhookId := webhookId, eventId := result.deliveryId,
    status := if result.success then "success" else "failed",
    response := result.response, error := result.error,
    retryCount := result.attempt }

/-- One `deliverWebhook` run: the returned result, the outbound POSTs in
attempt order, and the `WebhookDelivery` rows persisted. -/
structure DeliveryRun where
  result : WebhookDeliveryResult
  requests : List OutboundRequest
  records : List DeliveryRecord
  deriving Repr, DecidableEq

/-- The `while (attempt < maxRetries)` retry loop of
`WebhookService.deliverWebhook`, by recursion on the remaining attempts:
each iteration increments `attempt`, signs and posts; on success it
persists the success result and returns; on failure it records the last
error, sleeps per the backoff table, and retries; when attempts are
exhausted it persists the failure result
(`statusCode = lastError.response?.status || 0`). -/
def deliverLoop (w : WebhookSub) (eventType payloadJson deliveryId : String)
    (outcome : Nat → AttemptOutcome) :
    Nat → Nat → Option (String × Option Nat) → DeliveryRun
  | 0, attempt, lastError =>
    let result : WebhookDeliveryResult :=
      { success := false, statusCode := (lastError.bind Prod.snd).getD 0,
        response := none, error := lastError.map Prod.fst,
        deliveryId := deliveryId, attempt := attempt }
    { result := result, requests := [], records := [mkDeliveryRecord w.id result] }
  | remaining + 1, attempt, _lastError =>
    let att := attempt + 1
    let req := mkRequest w eventType payloadJson deliveryId
    match outcome att with
    | .success status data =>
      let result : WebhookDeliveryResult :=
        { success := true, statusCode := status, response := some data,
          error := none, deliveryId := deliveryId, attempt := att }
      { result := result, requests := [req],
        records := [mkDeliveryRecord w.id result] }
    | .failure msg st =>
      let rest := deliverLoop w eventType payloadJson deliveryId outcome
        remaining att (some (msg, st))
      { result := rest.result, requests := req :: rest.requests,
        records := rest.records }

/-- `WebhookService.deliverWebhook`: `deliveryId` embeds the
`randomUUID()` generated once per trigger before the retry loop;
`payloadJson` is `JSON.stringify(payload)`; `outcome n` is the result of
the n-th `axios.post`. -/
def deliverWebhook (w : WebhookSub) (eventType payloadJson deliveryId : String)
    (outcome : Nat → AttemptOutcome) : DeliveryRun :=
  deliverLoop w eventType payloadJson deliveryId outcome
    deliveryConfig.maxRetries 0 none

/-- The webhook tables: `Webhook` rows and `WebhookDelivery` rows. -/
structure DB where
  webhooks : List WebhookSub
  deliveries : List DeliveryRecord
  deriving Repr, DecidableEq

/-- `WebhookRepository.updateDeliveryStatus`:
`prisma.webhook.update({where: {id}, data: {enabled: result.success}})`
followed by `prisma.webhookDelivery.create(...)`. -/
def updateDeliveryStatus (db : DB) (webhookId : String)
    (result : WebhookDeliveryResult) : DB :=
  { webhooks := db.webhooks.map (fun w =>
      if w.id = webhookId then { w with enabled := result.success } else w),
    deliveries := db.deliveries ++ [mkDeliveryRecord webhookId result] }

end Webhook


namespace RateLimit

/-- C1: the claim predicts that when the row is present and `now` equals
`windowResetAt` (so `now >= windowResetAt`), the row is reset to `count = 1`
and the request is allowed.  The code resets only when `resetAt < now`
(strictly), so at `now = resetAt` it instead increments: with `max = 5` and
`count = 5` the call yields `count = 6` and `isLimited = true`, refuting the
claim at this input. -/
theorem checkRateLimit_boundary_counterexample :
    ¬ ((checkRateLimit ⟨60000, 5⟩ (some ⟨5, 1000⟩) 1000).row.count = 1 ∧
       (checkRateLimit ⟨60000, 5⟩ (some ⟨5, 1000⟩) 1000).isLimited = false) := by
  decide

/-- C1 (amended): `checkRateLimit` follows the fixed-window algorithm with a
strict rollover test: if the row is absent or `now > windowResetAt`, the row
is reset/created with `count = 1` and `windowResetAt = now + windowMs` and
the request is allowed with `remaining = max - 1`; otherwise (including
`now = windowResetAt` exactly) `count` is incremented and the request is
allowed iff the post-increment count is `<= max` (a rejected request still
increments the count), with `remaining = max(0, max - count)` never
negative. -/
theorem checkRateLimit_spec (cfg : Config) (row? : Option Row) (now : Int)
    (hmax : 1 ≤ cfg.max) :
    (row? = none →
      checkRateLimit cfg row? now =
        { row := ⟨1, now + cfg.windowMs⟩, isLimited := false,
          limitInfo := ⟨cfg.max, cfg.max - 1, Int.fdiv (now + cfg.windowMs) 1000⟩ }) ∧
    (∀ row, row? = some row → row.resetAt < now →
      checkRateLimit cfg row? now =
        { row := ⟨1, now + cfg.windowMs⟩, isLimited := false,
          limitInfo := ⟨cfg.max, cfg.max - 1, Int.fdiv (now + cfg.windowMs) 1000⟩ }) ∧
    (∀ row, row? = some row → now ≤ row.resetAt →
      (checkRateLimit cfg row? now).row = ⟨row.count + 1, row.resetAt⟩ ∧
      ((checkRateLimit cfg row? now).isLimited = false ↔ row.count + 1 ≤ cfg.max) ∧
      (checkRateLimit cfg row? now).limitInfo.remaining =
        max 0 (cfg.max - (row.count + 1))) ∧
    0 ≤ (checkRateLimit cfg row? now).limitInfo.remaining := by
  refine ⟨?_, ?_, ?_, ?_⟩
  · rintro rfl
    simp [checkRateLimit, getOrCreateRateLimit, calculateLimitInfo, CheckResult.mk.injEq,
      LimitInfo.mk.injEq]
    omega
  · rintro row rfl hlt
    simp [checkRateLimit, getOrCreateRateLimit, calculateLimitInfo, hlt, CheckResult.mk.injEq,
      LimitInfo.mk.injEq]
    omega
  · rintro row rfl hle
    have hnot : ¬ row.resetAt < now := not_lt.mpr hle
    refine ⟨?_, ?_, ?_⟩ <;>
      simp [checkRateLimit, getOrCreateRateLimit, calculateLimitInfo, hnot]
  · cases row? with
    | none => simp [checkRateLimit, getOrCreateRateLimit, calculateLimitInfo]
    | some row =>
      by_cases hlt : row.resetAt < now <;>
        simp [checkRateLimit, getOrCreateRateLimit, calculateLimitInfo, hlt]

/-- Witness for `checkRateLimit_spec` at `cfg = ⟨60000, 5⟩`,
`row = ⟨5, 1000⟩`, `now = 1000`. -/
theorem checkRateLimit_spec_witness :
    (1 : Int) ≤ 5 ∧
    ((checkRateLimit ⟨60000, 5⟩ (some ⟨5, 1000⟩) 1000).row = ⟨6, 1000⟩ ∧
      ((checkRateLimit ⟨60000, 5⟩ (some ⟨5, 1000⟩) 1000).isLimited = false ↔ (5 : Int) + 1 ≤ 5) ∧
      (checkRateLimit ⟨60000, 5⟩ (some ⟨5, 1000⟩) 1000).limitInfo.remaining =
        max 0 ((5 : Int) - (5 + 1))) :=
  ⟨by decide,
    (checkRateLimit_spec ⟨60000, 5⟩ (some ⟨5, 1000⟩) 1000 (by decide)).2.2.1
      ⟨5, 1000⟩ rfl (by decide)⟩

end RateLimit

namespace TimeSeries

/-- C7: for every supported interval, `aggregate` rejects `end <= start`
with a `VALIDATION` error (checked first), rejects spans exceeding the
interval's configured `maxTimeRange` with a `VALIDATION` error, and only
when both checks pass resolves the view name for the requested
granularity. -/
theorem aggregate_spec (interval : TimeInterval) (s e : Int) :
    (e ≤ s → aggregate interval s e =
      .error { type := .validation, message := "End time must be after start time",
               statusCode := 400 }) ∧
    (s < e → e - s > (getConfig interval).maxTimeRange →
      aggregate interval s e =
        .error { type := .validation, message := "Time range too large",
                 statusCode := 400 }) ∧
    (s < e → e - s ≤ (getConfig interval).maxTimeRange →
      aggregate interval s e =
        .ok { interval := interval, viewName := (getConfig interval).viewName }) := by
  refine ⟨?_, ?_, ?_⟩
  · intro hle
    have h1 : e - s ≤ 0 := by omega
    simp [aggregate, validateTimeRangeForInterval, h1]
  · intro hlt hbig
    have h1 : ¬ e - s ≤ 0 := by omega
    simp [aggregate, validateTimeRangeForInterval, h1, hbig]
  · intro hlt hsmall
    have h1 : ¬ e - s ≤ 0 := by omega
    have h2 : ¬ e - s > (getConfig interval).maxTimeRange := by omega
    simp [aggregate, validateTimeRangeForInterval, h1, h2]

/-- Witness for `aggregate_spec`: the three branches at `interval = '1m'`
(`maxTimeRange` = 24 h) with concrete ranges. -/
theorem aggregate_spec_witness :
    aggregate .m1 0 0 =
      .error { type := .validation, message := "End time must be after start time",
               statusCode := 400 } ∧
    aggregate .m1 0 (25 * 60 * 60 * 1000) =
      .error { type := .validation, message := "Time range too large",
               statusCode := 400 } ∧
    aggregate .m1 0 1000 = .ok { interval := .m1, viewName := "events_1m" } :=
  ⟨(aggregate_spec .m1 0 0).1 (by decide),
   (aggregate_spec .m1 0 (25 * 60 * 60 * 1000)).2.1 (by decide) (by decide),
   (aggregate_spec .m1 0 1000).2.2 (by decide) (by decide)⟩

theorem bucketWidth_pos (s e : Int) : 0 < bucketWidth s e := by
  unfold bucketWidth
  cases suggestInterval s e <;> norm_num

theorem generateBucketsAux_ok (width e : Int) (hw : 0 < width) :
    ∀ (fuel : Nat) (cur : Int), cur ≤ e → (e - cur).toNat ≤ fuel →
      bucketsOK e cur (generateBucketsAux width e fuel cur) := by
  intro fuel
  induction fuel with
  | zero =>
    intro cur hle hfuel
    simp only [generateBucketsAux, bucketsOK]
    omega
  | succ n ih =>
    intro cur hle hfuel
    by_cases h : cur < e
    · simp only [generateBucketsAux, if_pos h, bucketsOK]
      refine ⟨trivial, ?_, min_le_right _ _, ?_⟩
      · rcases min_cases (cur + width) e with ⟨hmin, _⟩ | ⟨hmin, _⟩ <;> omega
      · refine ih (min (cur + width) e) (min_le_right _ _) ?_
        rcases min_cases (cur + width) e with ⟨hmin, _⟩ | ⟨hmin, _⟩ <;> omega
    · simp only [generateBucketsAux, if_neg h, bucketsOK]
      omega

theorem bucketsOK_head (e cur : Int) (b : Int × Int) (bs : List (Int × Int))
    (h : bucketsOK e cur (b :: bs)) : b.1 = cur := by
  rcases b with ⟨s, t⟩
  simpa [bucketsOK] using h.1

theorem bucketsOK_getLast (e : Int) :
    ∀ (bs : List (Int × Int)) (cur : Int), bucketsOK e cur bs →
      ∀ h : bs ≠ [], (bs.getLast h).2 = e := by
  intro bs
  induction bs with
  | nil => intro cur _ h; exact absurd rfl h
  | cons b rest ih =>
    intro cur hok _
    rcases b with ⟨s, t⟩
    simp only [bucketsOK] at hok
    cases rest with
    | nil =>
      simp only [List.getLast]
      simp only [bucketsOK] at hok
      exact hok.2.2.2
    | cons c cs =>
      rw [List.getLast_cons (by simp)]
      exact ih t hok.2.2.2 (by simp)

theorem bucketsOK_mem (e : Int) :
    ∀ (bs : List (Int × Int)) (cur : Int), bucketsOK e cur bs →
      ∀ b ∈ bs, cur ≤ b.1 ∧ b.1 < b.2 ∧ b.2 ≤ e := by
  intro bs
  induction bs with
  | nil => intro cur _ b hb; simp at hb
  | cons a rest ih =>
    intro cur hok b hb
    rcases a with ⟨s, t⟩
    simp only [bucketsOK] at hok
    rcases List.mem_cons.mp hb with rfl | hb
    · exact ⟨le_of_eq hok.1.symm, by omega, hok.2.2.1⟩
    · have := ih t hok.2.2.2 b hb
      exact ⟨by omega, this.2.1, this.2.2⟩

theorem bucketsOK_cover (e : Int) :
    ∀ (bs : List (Int × Int)) (cur : Int), bucketsOK e cur bs →
      ∀ x : Int, (∃ b ∈ bs, b.1 ≤ x ∧ x < b.2) ↔ (cur ≤ x ∧ x < e) := by
  intro bs
  induction bs with
  | nil =>
    intro cur hok x
    simp only [bucketsOK] at hok
    subst hok
    simp
  | cons a rest ih =>
    intro cur hok x
    rcases a with ⟨s, t⟩
    simp only [bucketsOK] at hok
    obtain ⟨rfl, hct, hte, hrest⟩ := hok
    have hres := ih t hrest x
    simp only [List.mem_cons, exists_eq_or_imp]
    constructor
    · rintro (⟨h1, h2⟩ | h)
      · exact ⟨h1, by omega⟩
      · have := hres.mp h
        exact ⟨by omega, this.2⟩
    · rintro ⟨h1, h2⟩
      by_cases hx : x < t
      · exact Or.inl ⟨h1, hx⟩
      · exact Or.inr (hres.mpr ⟨by omega, h2⟩)

theorem bucketsOK_chain (e : Int) :
    ∀ (bs : List (Int × Int)) (cur : Int), bucketsOK e cur bs →
      ∀ i, (h : i + 1 < bs.length) →
        (bs.get ⟨i, Nat.lt_of_succ_lt h⟩).2 = (bs.get ⟨i + 1, h⟩).1 := by
  intro bs
  induction bs with
  | nil => intro cur _ i h; simp at h
  | cons a rest ih =>
    intro cur hok i h
    rcases a with ⟨s, t⟩
    simp only [bucketsOK] at hok
    cases i with
    | zero =>
      cases rest with
      | nil => simp at h
      | cons c cs =>
        have hc : c.1 = t := bucketsOK_head e t c cs hok.2.2.2
        simp [List.get, hc]
    | succ n =>
      have := ih t hok.2.2.2 n (by simpa using h)
      simpa [List.get] using this

theorem bucketsOK_sorted (e : Int) :
    ∀ (bs : List (Int × Int)) (cur : Int), bucketsOK e cur bs →
      ∀ i j (hi : i < bs.length) (hj : j < bs.length), i < j →
        (bs.get ⟨i, hi⟩).2 ≤ (bs.get ⟨j, hj⟩).1 := by
  intro bs
  induction bs with
  | nil => intro cur _ i j hi; simp at hi
  | cons a rest ih =>
    intro cur hok i j hi hj hij
    rcases a with ⟨s, t⟩
    simp only [bucketsOK] at hok
    cases j with
    | zero => omega
    | succ m =>
      have hm : m < rest.length := by simpa using hj
      cases i with
      | zero =>
        have hmem := bucketsOK_mem e rest t hok.2.2.2 (rest.get ⟨m, hm⟩)
          (rest.get_mem _ _)
        simpa [List.get] using hmem.1
      | succ n =>
        have := ih t hok.2.2.2 n m (by simpa using hi) hm (by omega)
        simpa [List.get] using this

theorem bucketsOK_headFst (e cur : Int) (bs : List (Int × Int))
    (h : bucketsOK e cur bs) (hne : bs ≠ []) : (bs.head hne).1 = cur := by
  cases bs with
  | nil => exact absurd rfl hne
  | cons b rest =>
    simp only [List.head_cons]
    exact bucketsOK_head e cur b rest h

theorem generateBuckets_bucketsOK (s e : Int) (h : s < e) :
    bucketsOK e s (generateBuckets s e) := by
  unfold generateBuckets
  exact generateBucketsAux_ok (bucketWidth s e) e (bucketWidth_pos s e)
    (e - s).toNat s (le_of_lt h) (le_refl _)

/-- C8: for every `start < end`, `generateBuckets` returns a non-empty
sequence of non-overlapping, contiguous buckets `[bᵢ.start, bᵢ.end)` with
`b₁.start = start`, `bₖ.end = end` (the final bucket clipped to `end`
rather than overrunning), adjacent buckets touching
(`bᵢ.end = bᵢ₊₁.start`), every bucket non-empty and in order, and whose
union is exactly `[start, end)`. -/
theorem generateBuckets_spec (s e : Int) (h : s < e) :
    generateBuckets s e ≠ [] ∧
    (∀ hne : generateBuckets s e ≠ [],
      ((generateBuckets s e).head hne).1 = s ∧
      ((generateBuckets s e).getLast hne).2 = e) ∧
    (∀ i, (hi : i + 1 < (generateBuckets s e).length) →
      ((generateBuckets s e).get ⟨i, Nat.lt_of_succ_lt hi⟩).2 =
        ((generateBuckets s e).get ⟨i + 1, hi⟩).1) ∧
    (∀ b ∈ generateBuckets s e, b.1 < b.2) ∧
    (∀ i j (hi : i < (generateBuckets s e).length)
        (hj : j < (generateBuckets s e).length), i < j →
      ((generateBuckets s e).get ⟨i, hi⟩).2 ≤ ((generateBuckets s e).get ⟨j, hj⟩).1) ∧
    (∀ x : Int, (∃ b ∈ generateBuckets s e, b.1 ≤ x ∧ x < b.2) ↔ s ≤ x ∧ x < e) := by
  have hok := generateBuckets_bucketsOK s e h
  have hne : generateBuckets s e ≠ [] := by
    intro hempty
    rw [hempty] at hok
    simp only [bucketsOK] at hok
    omega
  refine ⟨hne, ?_, ?_, ?_, ?_, ?_⟩
  · intro hne'
    exact ⟨bucketsOK_headFst e s (generateBuckets s e) hok hne',
      bucketsOK_getLast e (generateBuckets s e) s hok hne'⟩
  · exact bucketsOK_chain e (generateBuckets s e) s hok
  · intro b hb
    exact (bucketsOK_mem e (generateBuckets s e) s hok b hb).2.1
  · exact bucketsOK_sorted e (generateBuckets s e) s hok
  · exact bucketsOK_cover e (generateBuckets s e) s hok

/-- Witness for `generateBuckets_spec` at `start = 0`, `end = 10` ms:
a sub-bucket-sized range produces the single clipped bucket `[0, 10)`. -/
theorem generateBuckets_spec_witness :
    (0 : Int) < 10 ∧ generateBuckets 0 10 = [(0, 10)] ∧ generateBuckets 0 10 ≠ [] :=
  ⟨by decide, by decide, (generateBuckets_spec 0 10 (by decide)).1⟩

end TimeSeries

namespace Batch

theorem chunksOfAux_flatten {α : Type} (c : Nat) (hc : 0 < c) :
    ∀ (fuel : Nat) (l : List α), l.length ≤ fuel →
      (chunksOfAux c fuel l).flatten = l := by
  intro fuel
  induction fuel with
  | zero =>
    intro l hl
    have : l = [] := List.eq_nil_of_length_eq_zero (by omega)
    subst this
    simp [chunksOfAux]
  | succ n ih =>
    intro l hl
    cases l with
    | nil => simp [chunksOfAux]
    | cons x xs =>
      simp only [chunksOfAux, List.flatten_cons]
      rw [ih _ (by simp at hl ⊢; omega)]
      exact List.take_append_drop c (x :: xs)

theorem chunksOf_flatten {α : Type} (c : Nat) (hc : 0 < c) (l : List α) :
    (chunksOf c l).flatten = l :=
  chunksOfAux_flatten c hc l.length l (le_refl _)

theorem flatten_map_flatten {β γ : Type} (h : β → List γ) :
    ∀ (L : List (List β)),
      (L.map (fun w => (w.map h).flatten)).flatten = (L.flatten.map h).flatten := by
  intro L
  induction L with
  | nil => simp
  | cons w ws ih => simp [ih]

/-- The per-item characterization of the batch pipeline: for positive chunk
size and wave size, the chunk/wave plumbing flattens back to a single map
over the enumerated input. -/
theorem createBatchEvents_results (c m : Nat) (hc : 0 < c) (hm : 0 < m)
    (create : Nat → EventInput → Except String Event) (nowIso : String)
    (events : List EventInput) (hv : validateBatchSize events.length = .ok ()) :
    (createBatchEvents c m create nowIso events).result =
      .ok (events.enum.map fun p => processItem create nowIso p.1 p.2) := by
  unfold createBatchEvents
  rw [hv]
  simp only
  congr 1
  rw [flatten_map_flatten, chunksOf_flatten m hm]
  rw [← List.map_flatten, chunksOf_flatten c hc]

theorem get_enum_map {α β : Type} (f : Nat × α → β) (l : List α) (j : Nat)
    (h : j < l.length) (h2 : j < (l.enum.map f).length) :
    (l.enum.map f).get ⟨j, h2⟩ = f (j, l.get ⟨j, h⟩) := by
  simp [List.get_eq_getElem]

/-- C3: for every batch accepted for processing and every positive chunk
size `c` and wave bound `m`, `createBatchEvents` returns exactly one result
per input item, the i-th result being the outcome of the i-th item's create
call — input order is preserved independently of `c` and `m`. -/
theorem createBatchEvents_order (c m : Nat) (hc : 0 < c) (hm : 0 < m)
    (create : Nat → EventInput → Except String Event) (nowIso : String)
    (events : List EventInput) (hv : validateBatchSize events.length = .ok ()) :
    (createBatchEvents c m create nowIso events).result =
      .ok (events.enum.map fun p => processItem create nowIso p.1 p.2) ∧
    (events.enum.map fun p => processItem create nowIso p.1 p.2).length = events.length ∧
    ∀ (i : Nat) (hi : i < events.length),
      (events.enum.map fun p => processItem create nowIso p.1 p.2).get
          ⟨i, by simpa using hi⟩ =
        processItem create nowIso i (events.get ⟨i, hi⟩) := by
  refine ⟨createBatchEvents_results c m hc hm create nowIso events hv, by simp, ?_⟩
  intro i hi
  exact get_enum_map _ events i hi _

/-- Witness for `createBatchEvents_order`: a two-item batch with chunk size
and wave bound 2 and an always-succeeding repository. -/
theorem createBatchEvents_order_witness :
    (createBatchEvents 2 2
        (fun i _ => .ok { id := toString i, eventType := "t", source := "s",
                          timestamp := some "ts", status := "pending", error := none,
                          createdAt := "now", updatedAt := "now", severity := none })
        "now" [⟨"a", "s1", none⟩, ⟨"b", "s2", none⟩]).result =
      .ok (([⟨"a", "s1", none⟩, ⟨"b", "s2", none⟩] : List EventInput).enum.map
        fun p => processItem
          (fun i _ => .ok { id := toString i, eventType := "t", source := "s",
                            timestamp := some "ts", status := "pending", error := none,
                            createdAt := "now", updatedAt := "now", severity := none })
          "now" p.1 p.2) :=
  (createBatchEvents_order 2 2 (by decide) (by decide)
    (fun i _ => .ok { id := toString i, eventType := "t", source := "s",
                      timestamp := some "ts", status := "pending", error := none,
                      createdAt := "now", updatedAt := "now", severity := none })
    "now" [⟨"a", "s1", none⟩, ⟨"b", "s2", none⟩] (by decide)).1

/-- C4: a create failure for item `i` is isolated.  Under any repository
behavior `s1` that fails item `i` with message `msg`, item `i`'s result is
the synthesized `failed` placeholder (empty id, error message, original
input fields), and for any repository behavior `s2` that agrees with `s1`
on every other item, every other item's result is exactly what it would
have been under `s2`; the batch still returns a full result list (no abort
or rollback). -/
theorem createBatchEvents_isolation (c m : Nat) (hc : 0 < c) (hm : 0 < m)
    (s1 s2 : Nat → EventInput → Except String Event) (nowIso : String)
    (events : List EventInput) (hv : validateBatchSize events.length = .ok ())
    (i : Nat) (hi : i < events.length) (msg : String)
    (hfail : ∀ inp, s1 i inp = .error msg)
    (hagree : ∀ j inp, j ≠ i → s1 j inp = s2 j inp) :
    (createBatchEvents c m s1 nowIso events).result =
      .ok (events.enum.map fun p => processItem s1 nowIso p.1 p.2) ∧
    (events.enum.map fun p => processItem s1 nowIso p.1 p.2).get
        ⟨i, by simpa using hi⟩ =
      { id := "", eventType := (events.get ⟨i, hi⟩).eventType,
        source := (events.get ⟨i, hi⟩).source,
        timestamp := (events.get ⟨i, hi⟩).timestamp,
        status := "failed", error := some msg, createdAt := nowIso,
        updatedAt := nowIso, severity := some "error" } ∧
    ∀ (j : Nat) (hj : j < events.length), j ≠ i →
      (events.enum.map fun p => processItem s1 nowIso p.1 p.2).get
          ⟨j, by simpa using hj⟩ =
        (events.enum.map fun p => processItem s2 nowIso p.1 p.2).get
          ⟨j, by simpa using hj⟩ := by
  refine ⟨createBatchEvents_results c m hc hm s1 nowIso events hv, ?_, ?_⟩
  · rw [get_enum_map _ events i hi]
    unfold processItem
    rw [hfail]
  · intro j hj hne
    rw [get_enum_map _ events j hj, get_enum_map _ events j hj]
    unfold processItem
    rw [hagree j _ hne]

/-- Witness for `createBatchEvents_isolation`: a two-item batch where the
repository fails item 0 with "boom" under `s1` and succeeds everywhere
under `s2`. -/
theorem createBatchEvents_isolation_witness :
    (([⟨"a", "s1", none⟩, ⟨"b", "s2", none⟩] : List EventInput).enum.map
        fun p => processItem
          (fun j _ => if j = 0 then .error "boom"
            else .ok { id := toString j, eventType := "t", source := "s",
                       timestamp := some "ts", status := "pending", error := none,
                       createdAt := "now", updatedAt := "now", severity := none })
          "now" p.1 p.2).get ⟨0, by decide⟩ =
      { id := "", eventType := "a", source := "s1", timestamp := none,
        status := "failed", error := some "boom", createdAt := "now",
        updatedAt := "now", severity := some "error" } :=
  (createBatchEvents_isolation 2 2 (by decide) (by decide)
    (fun j _ => if j = 0 then .error "boom"
      else .ok { id := toString j, eventType := "t", source := "s",
                 timestamp := some "ts", status := "pending", error := none,
                 createdAt := "now", updatedAt := "now", severity := none })
    (fun j _ => .ok { id := toString j, eventType := "t", source := "s",
                      timestamp := some "ts", status := "pending", error := none,
                      createdAt := "now", updatedAt := "now", severity := none })
    "now" [⟨"a", "s1", none⟩, ⟨"b", "s2", none⟩] (by decide) 0 (by decide) "boom"
    (fun inp => rfl)
    (fun j inp hj => by simp [hj])).2.1

/-- C10: a batch of size zero is rejected before any chunking or item
processing, and a batch larger than the configured maximum (1000) is
rejected wholesale with a validation error: the run result is the
validation error, nothing is stored, and the effect trace is empty (no
create call is ever issued). -/
theorem createBatchEvents_size_limits (c m : Nat)
    (create : Nat → EventInput → Except String Event) (nowIso : String)
    (events : List EventInput) :
    (events.length = 0 →
      createBatchEvents c m create nowIso events =
        { result := .error ⟨.validation, "Batch size must be at least 1", 400⟩,
          stored := [] } ∧
      createBatchEventsTrace c m create nowIso events = []) ∧
    (events.length > 1000 →
      createBatchEvents c m create nowIso events =
        { result := .error ⟨.validation, "Batch size cannot exceed 1000", 400⟩,
          stored := [] } ∧
      createBatchEventsTrace c m create nowIso events = []) := by
  constructor
  · intro h0
    have hval : validateBatchSize events.length =
        .error { type := .validation, message := "Batch size must be at least 1",
                 statusCode := 400 } := by
      simp [validateBatchSize, h0]
    constructor
    · unfold createBatchEvents
      rw [hval]
    · unfold createBatchEventsTrace
      rw [hval]
  · intro hbig
    have hval : validateBatchSize events.length =
        .error { type := .validation, message := "Batch size cannot exceed 1000",
                 statusCode := 400 } := by
      unfold validateBatchSize
      rw [if_neg (by omega), if_pos (by omega)]
    constructor
    · unfold createBatchEvents
      rw [hval]
    · unfold createBatchEventsTrace
      rw [hval]

/-- Witness for `createBatchEvents_size_limits`: the empty batch and a
batch of 1001 items. -/
theorem createBatchEvents_size_limits_witness :
    (createBatchEvents 10 5 (fun _ _ => .error "db") "now" ([] : List EventInput) =
      { result := .error ⟨.validation, "Batch size must be at least 1", 400⟩,
        stored := [] } ∧
      createBatchEventsTrace 10 5 (fun _ _ => .error "db") "now"
        ([] : List EventInput) = []) ∧
    (createBatchEvents 10 5 (fun _ _ => .error "db") "now"
        (List.replicate 1001 ⟨"t", "s", none⟩) =
      { result := .error ⟨.validation, "Batch size cannot exceed 1000", 400⟩,
        stored := [] } ∧
      createBatchEventsTrace 10 5 (fun _ _ => .error "db") "now"
        (List.replicate 1001 ⟨"t", "s", none⟩) = []) :=
  ⟨(createBatchEvents_size_limits 10 5 (fun _ _ => .error "db") "now" []).1 rfl,
   (createBatchEvents_size_limits 10 5 (fun _ _ => .error "db") "now"
     (List.replicate 1001 ⟨"t", "s", none⟩)).2
     (by rw [List.length_replicate]; omega)⟩

/-- C2: the batch path `await`s
`Promise.all(successfulEvents.map(e => triggerWebhooks('event.created', e).catch(…)))`
before returning, and `triggerWebhooks` resolves only after every
subscriber delivery reaches a terminal state — so the ingestion response
is *not* returned without blocking on webhook delivery.  At this concrete
input (one item whose create succeeds) the effect trace shows the awaited
webhook trigger strictly before the response. -/
theorem createBatchEventsTrace_awaits_webhooks :
    createBatchEventsTrace 1 1
        (fun i _ => .ok { id := toString i, eventType := "t", source := "s",
                          timestamp := some "ts", status := "pending", error := none,
                          createdAt := "now", updatedAt := "now", severity := none })
        "now" [⟨"t", "s", none⟩] =
      [.createCall 0, .awaitWebhookTrigger 0, .respond] := by
  decide

end Batch

namespace Webhook

theorem deliverLoop_invariant (w : WebhookSub)
    (eventType payloadJson deliveryId : String) (outcome : Nat → AttemptOutcome) :
    ∀ (remaining attempt : Nat) (lastError : Option (String × Option Nat)),
      (deliverLoop w eventType payloadJson deliveryId outcome
          remaining attempt lastError).records =
        [mkDeliveryRecord w.id
          (deliverLoop w eventType payloadJson deliveryId outcome
            remaining attempt lastError).result] ∧
      (deliverLoop w eventType payloadJson deliveryId outcome
          remaining attempt lastError).result.attempt =
        attempt + (deliverLoop w eventType payloadJson deliveryId outcome
          remaining attempt lastError).requests.length ∧
      (deliverLoop w eventType payloadJson deliveryId outcome
          remaining attempt lastError).result.deliveryId = deliveryId := by
  intro remaining
  induction remaining with
  | zero =>
    intro attempt lastError
    simp [deliverLoop]
  | succ n ih =>
    intro attempt lastError
    simp only [deliverLoop]
    cases houtcome : outcome (attempt + 1) with
    | success status data => simp
    | failure msg st =>
      simp only
      have h := ih (attempt + 1) (some (msg, st))
      refine ⟨h.1, ?_, h.2.2⟩
      simp only [List.length_cons]
      omega

theorem deliverLoop_requests (w : WebhookSub)
    (eventType payloadJson deliveryId : String) (outcome : Nat → AttemptOutcome) :
    ∀ (remaining attempt : Nat) (lastError : Option (String × Option Nat)),
      ∀ req ∈ (deliverLoop w eventType payloadJson deliveryId outcome
          remaining attempt lastError).requests,
        req = mkRequest w eventType payloadJson deliveryId := by
  intro remaining
  induction remaining with
  | zero =>
    intro attempt lastError req hreq
    simp [deliverLoop] at hreq
  | succ n ih =>
    intro attempt lastError req hreq
    simp only [deliverLoop] at hreq
    cases houtcome : outcome (attempt + 1) with
    | success status data =>
      rw [houtcome] at hreq
      simp at hreq
      exact hreq
    | failure msg st =>
      rw [houtcome] at hreq
      simp only [List.mem_cons] at hreq
      rcases hreq with rfl | hreq
      · rfl
      · exact ih (attempt + 1) (some (msg, st)) req hreq

/-- C5: once a delivery reaches its terminal state, exactly one
`WebhookDelivery` record is persisted, carrying the final status, last
response/error and the attempt count at termination (`records` is exactly
the one row built from the final result, whose `attempt` equals the
number of outbound HTTP calls); in particular a delivery that fails its
first two attempts and succeeds on the third persists one record with
status `success` and `retryCount = 3` after exactly 3 outbound calls. -/
theorem deliverWebhook_terminal_persistence :
    (∀ (w : WebhookSub) (eventType payloadJson deliveryId : String)
        (outcome : Nat → AttemptOutcome),
      (deliverWebhook w eventType payloadJson deliveryId outcome).records =
        [mkDeliveryRecord w.id
          (deliverWebhook w eventType payloadJson deliveryId outcome).result] ∧
      (deliverWebhook w eventType payloadJson deliveryId outcome).result.attempt =
        (deliverWebhook w eventType payloadJson deliveryId outcome).requests.length ∧
      (deliverWebhook w eventType payloadJson deliveryId outcome).result.deliveryId =
        deliveryId) ∧
    ((deliverWebhook
        ⟨"w1", "n", "https://example.com/hook", "sec", ["event.created"], true, 3⟩
        "event.created" "{}" "d1"
        (fun n => if n ≤ 2 then .failure "timeout" none
          else .success 200 "ok")).result.success = true ∧
      (deliverWebhook
        ⟨"w1", "n", "https://example.com/hook", "sec", ["event.created"], true, 3⟩
        "event.created" "{}" "d1"
        (fun n => if n ≤ 2 then .failure "timeout" none
          else .success 200 "ok")).result.attempt = 3 ∧
      (deliverWebhook
        ⟨"w1", "n", "https://example.com/hook", "sec", ["event.created"], true, 3⟩
        "event.created" "{}" "d1"
        (fun n => if n ≤ 2 then .failure "timeout" none
          else .success 200 "ok")).requests.length = 3 ∧
      (deliverWebhook
        ⟨"w1", "n", "https://example.com/hook", "sec", ["event.created"], true, 3⟩
        "event.created" "{}" "d1"
        (fun n => if n ≤ 2 then .failure "timeout" none
          else .success 200 "ok")).records =
        [⟨"w1", "d1", "success", some "ok", none, 3⟩]) := by
  constructor
  · intro w eventType payloadJson deliveryId outcome
    have h := deliverLoop_invariant w eventType payloadJson deliveryId outcome
      deliveryConfig.maxRetries 0 none
    exact ⟨h.1, by simpa using h.2.1, h.2.2⟩
  · refine ⟨by decide, by decide, by decide, by decide⟩

/-- C9: every outbound POST of a delivery carries the signature
`hex(HMAC-SHA256(secret, payloadJson))` computed with the subscriber's
secret, the webhook id, the event type, and the per-trigger delivery id,
which is identical across all retry attempts of the delivery. -/
theorem deliverWebhook_signature_headers (w : WebhookSub)
    (eventType payloadJson deliveryId : String) (outcome : Nat → AttemptOutcome) :
    ∀ req ∈ (deliverWebhook w eventType payloadJson deliveryId outcome).requests,
      req.signature = Crypto.hexOfBytes
        (Crypto.hmacSha256 (Crypto.utf8Bytes w.secret)
          (Crypto.utf8Bytes payloadJson)) ∧
      req.webhookId = w.id ∧
      req.deliveryId = deliveryId ∧
      req.eventType = eventType ∧
      req.url = w.url ∧
      req.body = payloadJson ∧
      req.timeout = deliveryConfig.timeout := by
  intro req hreq
  have h := deliverLoop_requests w eventType payloadJson deliveryId outcome
    deliveryConfig.maxRetries 0 none req hreq
  subst h
  exact ⟨rfl, rfl, rfl, rfl, rfl, rfl, rfl⟩

/-- Witness for `deliverWebhook_signature_headers`: a first-attempt
success; the single request is signed with
`hex(HMAC-SHA256("sec", "{}"))`. -/
theorem deliverWebhook_signature_headers_witness :
    (mkRequest ⟨"w1", "n", "https://example.com/hook", "sec", ["event.created"], true, 3⟩
        "event.created" "{}" "d1") ∈
      (deliverWebhook
        ⟨"w1", "n", "https://example.com/hook", "sec", ["event.created"], true, 3⟩
        "event.created" "{}" "d1" (fun _ => .success 200 "ok")).requests ∧
    (mkRequest ⟨"w1", "n", "https://example.com/hook", "sec", ["event.created"], true, 3⟩
        "event.created" "{}" "d1").signature =
      Crypto.hexOfBytes (Crypto.hmacSha256 (Crypto.utf8Bytes "sec")
        (Crypto.utf8Bytes "{}")) :=
  have hmem : (mkRequest
      ⟨"w1", "n", "https://example.com/hook", "sec", ["event.created"], true, 3⟩
      "event.created" "{}" "d1") ∈
      (deliverWebhook
        ⟨"w1", "n", "https://example.com/hook", "sec", ["event.created"], true, 3⟩
        "event.created" "{}" "d1" (fun _ => .success 200 "ok")).requests :=
    List.Mem.head _
  ⟨hmem,
   (deliverWebhook_signature_headers
      ⟨"w1", "n", "https://example.com/hook", "sec", ["event.created"], true, 3⟩
      "event.created" "{}" "d1" (fun _ => .success 200 "ok")
      (mkRequest ⟨"w1", "n", "https://example.com/hook", "sec", ["event.created"], true, 3⟩
        "event.created" "{}" "d1")
      hmem).1⟩

/-- C6: refuted — recording a delivery outcome does modify the `Webhook`
row: `updateDeliveryStatus` sets `enabled := result.success`, so after a
failed delivery the previously-enabled subscription row differs from its
prior value. -/
theorem updateDeliveryStatus_mutates_webhook :
    (updateDeliveryStatus
        ⟨[⟨"w1", "n", "https://example.com/hook", "sec", ["event.created"], true, 3⟩], []⟩
        "w1" ⟨false, 0, none, some "timeout", "d1", 3⟩).webhooks ≠
      [⟨"w1", "n", "https://example.com/hook", "sec", ["event.created"], true, 3⟩] := by
  decide

/-- C6 (amended): recording a delivery outcome appends exactly one
`WebhookDelivery` row and leaves every `Webhook` field unchanged *except*
`enabled`, which is set to the delivery's `success` value on the matching
row (url, secret, subscribed event types and retry count are never
modified). -/
theorem updateDeliveryStatus_frame (db : DB) (webhookId : String)
    (result : WebhookDeliveryResult) :
    (updateDeliveryStatus db webhookId result).deliveries =
      db.deliveries ++ [mkDeliveryRecord webhookId result] ∧
    (updateDeliveryStatus db webhookId result).webhooks.length =
      db.webhooks.length ∧
    ∀ (i : Nat) (hi : i < db.webhooks.length),
      ((updateDeliveryStatus db webhookId result).webhooks.get
          ⟨i, by simpa [updateDeliveryStatus] using hi⟩).id =
        (db.webhooks.get ⟨i, hi⟩).id ∧
      ((updateDeliveryStatus db webhookId result).webhooks.get
          ⟨i, by simpa [updateDeliveryStatus] using hi⟩).name =
        (db.webhooks.get ⟨i, hi⟩).name ∧
      ((updateDeliveryStatus db webhookId result).webhooks.get
          ⟨i, by simpa [updateDeliveryStatus] using hi⟩).url =
        (db.webhooks.get ⟨i, hi⟩).url ∧
      ((updateDeliveryStatus db webhookId result).webhooks.get
          ⟨i, by simpa [updateDeliveryStatus] using hi⟩).secret =
        (db.webhooks.get ⟨i, hi⟩).secret ∧
      ((updateDeliveryStatus db webhookId result).webhooks.get
          ⟨i, by simpa [updateDeliveryStatus] using hi⟩).events =
        (db.webhooks.get ⟨i, hi⟩).events ∧
      ((updateDeliveryStatus db webhookId result).webhooks.get
          ⟨i, by simpa [updateDeliveryStatus] using hi⟩).retryCount =
        (db.webhooks.get ⟨i, hi⟩).retryCount ∧
      ((updateDeliveryStatus db webhookId result).webhooks.get
          ⟨i, by simpa [updateDeliveryStatus] using hi⟩).enabled =
        (if (db.webhooks.get ⟨i, hi⟩).id = webhookId then result.success
          else (db.webhooks.get ⟨i, hi⟩).enabled) := by
  refine ⟨rfl, by simp [updateDeliveryStatus], ?_⟩
  intro i hi
  simp only [updateDeliveryStatus, List.get_eq_getElem, List.getElem_map]
  by_cases h : db.webhooks[i].id = webhookId <;> simp [h]

/-- Witness for `updateDeliveryStatus_frame` at a one-row table and a
failed delivery result: the matching row keeps its secret but its
`enabled` flag becomes `false`. -/
theorem updateDeliveryStatus_frame_witness :
    (0 : Nat) < 1 ∧
    ((updateDeliveryStatus
        ⟨[⟨"w1", "n", "https://example.com/hook", "sec", ["event.created"], true, 3⟩], []⟩
        "w1" ⟨false, 0, none, some "timeout", "d1", 3⟩).webhooks.get
        ⟨0, by decide⟩).secret = "sec" ∧
    ((updateDeliveryStatus
        ⟨[⟨"w1", "n", "https://example.com/hook", "sec", ["event.created"], true, 3⟩], []⟩
        "w1" ⟨false, 0, none, some "timeout", "d1", 3⟩).webhooks.get
        ⟨0, by decide⟩).enabled = false := by
  refine ⟨by decide, ?_, ?_⟩
  · simpa using ((updateDeliveryStatus_frame
      ⟨[⟨"w1", "n", "https://example.com/hook", "sec", ["event.created"], true, 3⟩], []⟩
      "w1" ⟨false, 0, none, some "timeout", "d1", 3⟩).2.2 0 (by decide)).2.2.2.1
  · simpa using ((updateDeliveryStatus_frame
      ⟨[⟨"w1", "n", "https://example.com/hook", "sec", ["event.created"], true, 3⟩], []⟩
      "w1" ⟨false, 0, none, some "timeout", "d1", 3⟩).2.2 0 (by decide)).2.2.2.2.2.2

end Webhook
